import Mathlib

/-!
# Verification of the livekit-rust-sdks handle-registry / streaming-bridge core

Shallow embedding of four source files:
- `livekit/src/room/e2ee/manager.rs` (`E2eeManager`, the SecureChannelManager),
- `livekit-ffi/src/server/video_stream.rs` (`FfiVideoStream`, the StreamBridge),
- `livekit/src/room/track/local_audio_track.rs` (`LocalAudioTrack`),
- `livekit/src/room/track/remote_track.rs` (`RemoteTrack`).

Mutable state (Rust structs behind `Arc<Mutex<..>>`) becomes explicit state
passing; operations that call out into native transform objects additionally
return a trace of those calls (`Effect`s); the async producer task becomes a
function of the sequence of `select!` resolutions chosen by the scheduler.
-/

namespace LiveKit

/-- `EncryptionType` from the e2ee module (`None | Gcm | Custom`). -/
inductive EncryptionType where
  | none
  | gcm
  | custom
  deriving DecidableEq, Repr

/-- `KeyProvider` is opaque to the manager besides being cloned into
cryptors; a tag stands for its native handle. -/
structure KeyProvider where
  handle : Nat
  deriving DecidableEq, Repr

/-- `E2eeOptions { encryption_type, key_provider }`. -/
structure E2eeOptions where
  encryption_type : EncryptionType
  key_provider : KeyProvider
  deriving DecidableEq, Repr

/-- A native `FrameCryptor` as the manager observes it: the participant
identity it was built for and its own enabled flag (mutated by
`FrameCryptor::set_enabled`). -/
structure FrameCryptor where
  participant_identity : String
  enabled : Bool
  deriving DecidableEq, Repr

/-- A call made on a native `FrameCryptor` object
(`cryptor.set_enabled(value)`), recorded as an effect with the binding key
it concerns. -/
inductive Effect where
  | cryptorSetEnabled (identity : String) (sid : String) (value : Bool)
  deriving DecidableEq, Repr

/-- Binding key: `(ParticipantIdentity, TrackSid)`; both are string wrappers
in the source. -/
abbrev BindingKey := String × String

/-- `ManagerInner` from `manager.rs`: optional configuration, the global
enabled flag, and the `frame_cryptors` map. The `HashMap` is embedded as an
association list whose insert replaces the previous entry for the key. -/
structure ManagerInner where
  options : Option E2eeOptions
  enabled : Bool
  frame_cryptors : List (BindingKey × FrameCryptor)
  deriving DecidableEq, Repr

namespace HashMapModel

/-- `HashMap::insert`: at most one entry per key survives. -/
def insert (k : BindingKey) (v : FrameCryptor)
    (m : List (BindingKey × FrameCryptor)) : List (BindingKey × FrameCryptor) :=
  (k, v) :: m.filter (fun p => p.1 ≠ k)

/-- `HashMap::remove`. -/
def remove (k : BindingKey)
    (m : List (BindingKey × FrameCryptor)) : List (BindingKey × FrameCryptor) :=
  m.filter (fun p => p.1 ≠ k)

/-- `HashMap::get` (lookup by key). -/
def find (k : BindingKey)
    (m : List (BindingKey × FrameCryptor)) : Option FrameCryptor :=
  (m.find? (fun p => p.1 = k)).map (·.2)

/-- The keys currently bound. -/
def keys (m : List (BindingKey × FrameCryptor)) : List BindingKey :=
  m.map Prod.fst

end HashMapModel

namespace E2eeManager

/-- `E2eeManager::new(options)`: `enabled` starts as `options.is_some()`. -/
def new (options : Option E2eeOptions) : ManagerInner :=
  { options := options
    enabled := options.isSome
    frame_cryptors := [] }

/-- `E2eeManager::initialized()`: whether options is present. -/
def hasOptions (m : ManagerInner) : Bool :=
  m.options.isSome

/-- `E2eeManager::enabled()`: `inner.enabled && self.initialized()`. -/
def enabled (m : ManagerInner) : Bool :=
  m.enabled && hasOptions m

/-- `E2eeManager::set_enabled(enabled)`: early-returns when the stored flag
already equals the argument; otherwise calls `cryptor.set_enabled` on every
binding. The source never writes `inner.enabled` (the lock guard is not even
taken mutably), so the stored flag is left untouched in both branches. -/
def set_enabled (m : ManagerInner) (v : Bool) : ManagerInner × List Effect :=
  if m.enabled = v then
    (m, [])
  else
    ({ m with
        frame_cryptors :=
          m.frame_cryptors.map (fun p => (p.1, { p.2 with enabled := v })) },
     m.frame_cryptors.map (fun p => .cryptorSetEnabled p.1.1 p.1.2 v))

/-- `E2eeManager::setup_rtp_receiver` / `setup_rtp_sender`: builds a fresh
`FrameCryptor` for the identity and immediately applies the stored flag via
`frame_cryptor.set_enabled(inner.enabled)`. Both helpers produce the same
observable cryptor state. -/
def setup_cryptor_for (m : ManagerInner) (identity : String) : FrameCryptor :=
  { participant_identity := identity, enabled := m.enabled }

/-- `E2eeManager::on_track_subscribed(track, publication, participant)`:
no-op when not initialized or when the publication's encryption type is
`None`; otherwise builds a cryptor and inserts it under
`(identity, publication.sid())`. The effect records the `set_enabled`
applied to the freshly built cryptor. -/
def on_track_subscribed (m : ManagerInner) (identity sid : String)
    (encryption_type : EncryptionType) : ManagerInner × List Effect :=
  if ¬ hasOptions m then
    (m, [])
  else if encryption_type = EncryptionType.none then
    (m, [])
  else
    let fc := setup_cryptor_for m identity
    ({ m with frame_cryptors := HashMapModel.insert (identity, sid) fc m.frame_cryptors },
     [.cryptorSetEnabled identity sid m.enabled])

/-- `E2eeManager::on_local_track_published(track, publication, participant)`:
same structure as `on_track_subscribed`, via `setup_rtp_sender`. -/
def on_local_track_published (m : ManagerInner) (identity sid : String)
    (encryption_type : EncryptionType) : ManagerInner × List Effect :=
  if ¬ hasOptions m then
    (m, [])
  else if encryption_type = EncryptionType.none then
    (m, [])
  else
    let fc := setup_cryptor_for m identity
    ({ m with frame_cryptors := HashMapModel.insert (identity, sid) fc m.frame_cryptors },
     [.cryptorSetEnabled identity sid m.enabled])

/-- `E2eeManager::remove_frame_cryptor(identity, sid)`: removes the map
entry; no call is made on the cryptor being removed. -/
def remove_frame_cryptor (m : ManagerInner) (identity sid : String) :
    ManagerInner × List Effect :=
  ({ m with frame_cryptors := HashMapModel.remove (identity, sid) m.frame_cryptors },
   [])

/-- `E2eeManager::on_local_track_unpublished(publication, participant)`:
forwards to `remove_frame_cryptor`. -/
def on_local_track_unpublished (m : ManagerInner) (identity sid : String) :
    ManagerInner × List Effect :=
  remove_frame_cryptor m identity sid

/-- `E2eeManager::on_track_unsubscribed(_, publication, participant)`:
forwards to `remove_frame_cryptor`. -/
def on_track_unsubscribed (m : ManagerInner) (identity sid : String) :
    ManagerInner × List Effect :=
  remove_frame_cryptor m identity sid

/-- `E2eeManager::cleanup()`: calls `set_enabled(false)` on every cryptor,
then clears the map. -/
def cleanup (m : ManagerInner) : ManagerInner × List Effect :=
  ({ m with frame_cryptors := [] },
   m.frame_cryptors.map (fun p => .cryptorSetEnabled p.1.1 p.1.2 false))

/-- The manager operations a room can invoke, for reachability statements. -/
inductive Op where
  | setEnabled (v : Bool)
  | trackSubscribed (identity sid : String) (encryption_type : EncryptionType)
  | localTrackPublished (identity sid : String) (encryption_type : EncryptionType)
  | trackUnsubscribed (identity sid : String)
  | localTrackUnpublished (identity sid : String)
  | doCleanup
  deriving DecidableEq, Repr

/-- One manager operation as a state transformer with its effect trace. -/
def step (m : ManagerInner) : Op → ManagerInner × List Effect
  | .setEnabled v => set_enabled m v
  | .trackSubscribed identity sid et => on_track_subscribed m identity sid et
  | .localTrackPublished identity sid et => on_local_track_published m identity sid et
  | .trackUnsubscribed identity sid => on_track_unsubscribed m identity sid
  | .localTrackUnpublished identity sid => on_local_track_unpublished m identity sid
  | .doCleanup => cleanup m

/-- Run a sequence of operations from a state, keeping only the state. -/
def run (m : ManagerInner) (ops : List Op) : ManagerInner :=
  ops.foldl (fun s op => (step s op).1) m

end E2eeManager

/-! ## Tracks (`local_audio_track.rs`, `remote_track.rs`) -/

/-- A native `RtcAudioTrack`, identified by its id string. -/
structure RtcAudioTrack where
  id : String
  deriving DecidableEq, Repr

/-- A native `RtcVideoTrack`. -/
structure RtcVideoTrack where
  id : String
  deriving DecidableEq, Repr

/-- `MediaStreamTrack`: the sum of native audio and video tracks. -/
inductive MediaStreamTrack where
  | audio (t : RtcAudioTrack)
  | video (t : RtcVideoTrack)
  deriving DecidableEq, Repr

/-- `TrackKind` (`Audio | Video`). -/
inductive TrackKind where
  | audio
  | video
  deriving DecidableEq, Repr

/-- A `NativeAudioSource` handle for `RtcAudioSource::Native`. -/
structure NativeAudioSource where
  handle : Nat
  deriving DecidableEq, Repr

/-- `RtcAudioSource`: the `Native` variant carries a native source; the
other variants (`Dummy`, wasm) are not supported by
`create_audio_track`. -/
inductive RtcAudioSource where
  | dummy
  | native (src : NativeAudioSource)
  deriving DecidableEq, Repr

/-- `TrackInner` as observed through `LocalAudioTrack`: the info fields set
at construction and the fixed `rtc_track`. (`info` sits behind an `RwLock`
in the source; the fields mutated by the in-scope methods are
`transceiver` and `muted` only.) -/
structure TrackInner where
  sid : String
  name : String
  kind : TrackKind
  rtc_track : MediaStreamTrack
  muted : Bool
  deriving DecidableEq, Repr

/-- `LocalAudioTrack { inner, source }`. -/
structure LocalAudioTrack where
  inner : TrackInner
  source : RtcAudioSource
  deriving DecidableEq, Repr

namespace LocalAudioTrack

/-- `LocalAudioTrack::new(name, rtc_track, source)`: wraps the rtc track in
`MediaStreamTrack::Audio` and fixes `TrackKind::Audio`; the placeholder sid
is `"TR_unknown"`, and `new_inner` starts unmuted. -/
def new (name : String) (rtc_track : RtcAudioTrack) (source : RtcAudioSource) :
    LocalAudioTrack :=
  { inner :=
      { sid := "TR_unknown"
        name := name
        kind := TrackKind.audio
        rtc_track := MediaStreamTrack.audio rtc_track
        muted := false }
    source := source }

/-- The native peer-connection factory's `create_audio_track`: external
media-engine constructor (out of scope per the spec); it yields a fresh
`RtcAudioTrack` for the given native source. -/
def pcFactoryCreateAudioTrack (uuid : String) (_src : NativeAudioSource) :
    RtcAudioTrack :=
  { id := uuid }

/-- `LocalAudioTrack::create_audio_track(name, source)`: builds a native rtc
track for a `Native` source and wraps it via `new`; any other source kind
hits the `panic!("unsupported audio source")` arm, embedded as `none`. -/
def create_audio_track (name : String) (uuid : String) (source : RtcAudioSource) :
    Option LocalAudioTrack :=
  match source with
  | RtcAudioSource.native src =>
      some (new name (pcFactoryCreateAudioTrack uuid src) source)
  | _ => none

/-- `LocalAudioTrack::kind()`. -/
def kind (t : LocalAudioTrack) : TrackKind :=
  t.inner.kind

/-- `LocalAudioTrack::rtc_track()`: matches the `Audio` variant and returns
it; the fall-through is `unreachable!()`, embedded as `none`. -/
def rtc_track (t : LocalAudioTrack) : Option RtcAudioTrack :=
  match t.inner.rtc_track with
  | MediaStreamTrack.audio audio => some audio
  | _ => none

end LocalAudioTrack

/-! ## FFI video stream (`video_stream.rs`) -/

namespace Ffi

/-- `proto::VideoStreamType`: the native kind plus the other wire values
(only `VideoStreamNative` is handled by the non-wasm build; everything else
falls into the wildcard arm). -/
inductive VideoStreamType where
  | videoStreamNative
  | videoStreamHtml
  deriving DecidableEq, Repr

/-- `FfiError`: the variants `setup` can produce. -/
inductive FfiError where
  | invalidRequest (msg : String)
  | invalidHandle
  deriving DecidableEq, Repr

/-- The livekit `Track` held by an `FfiTrack`. Its `rtc_track()` dispatch
lives in `track/mod.rs`, outside this file subset.
Modelled from the spec: a tagged variant over the supported media kinds
whose classifier is the `MediaStreamTrack` it exposes. -/
structure Track where
  rtcTrackValue : MediaStreamTrack
  deriving DecidableEq, Repr

/-- `Track::rtc_track()`. -/
def Track.rtc_track (t : Track) : MediaStreamTrack :=
  t.rtcTrackValue

/-- `FfiTrack { track, .. }` as retrieved from the handle registry. -/
structure FfiTrack where
  track : Track
  deriving DecidableEq, Repr

/-- A resource stored in the server's handle registry, type-erased in the
source (`Box<dyn Any>`); here a tagged variant. -/
inductive StoredResource where
  | track (t : FfiTrack)
  | videoStream (handleId : Nat) (streamType : VideoStreamType)
  | frameBuffer
  deriving DecidableEq, Repr

/-- The FFI server state the claims observe.
Modelled from the spec: the HandleRegistry (`next_id` issues fresh,
monotonically increasing handles; `store_handle` inserts under a handle;
`retrieve_handle` is typed lookup) lives in `server/mod.rs`, outside this
file subset; embedded as a counter plus an association list. -/
structure ServerState where
  nextId : Nat
  handles : List (Nat × StoredResource)
  deriving DecidableEq, Repr

/-- Modelled from the spec: `FfiServer::next_id` returns a fresh handle and
advances the counter. -/
def ServerState.next_id (st : ServerState) : Nat × ServerState :=
  (st.nextId, { st with nextId := st.nextId + 1 })

/-- Modelled from the spec: `FfiServer::store_handle`. -/
def ServerState.store_handle (st : ServerState) (id : Nat) (r : StoredResource) :
    ServerState :=
  { st with handles := (id, r) :: st.handles.filter (fun p => p.1 ≠ id) }

/-- Modelled from the spec: `FfiServer::retrieve_handle::<FfiTrack>`: fails
when the handle is absent or the stored resource is not a track. -/
def ServerState.retrieve_track (st : ServerState) (id : Nat) :
    Except FfiError FfiTrack :=
  match (st.handles.find? (fun p => p.1 = id)).map (·.2) with
  | some (StoredResource.track t) => Except.ok t
  | _ => Except.error FfiError.invalidHandle

/-- `proto::NewVideoStreamRequest { track_handle, r#type }`. -/
structure NewVideoStreamRequest where
  track_handle : Nat
  type : VideoStreamType
  deriving DecidableEq, Repr

/-- `proto::OwnedVideoStream` as returned by `setup`: the owned handle id
and the stream info (handle id and type). -/
structure OwnedVideoStream where
  handle : Nat
  infoType : VideoStreamType
  deriving DecidableEq, Repr

/-- `FfiVideoStream::setup(server, new_stream)`: retrieves the track,
requires its rtc track to be the `Video` variant (`InvalidRequest`
otherwise), allocates the stream handle, spawns the producer task only for
`VideoStreamNative` (`InvalidRequest` for every other type), stores the
stream under its handle and returns the owned handle. The returned `Bool`
records whether a producer task was spawned. -/
def setup (st : ServerState) (req : NewVideoStreamRequest) :
    Except FfiError OwnedVideoStream × ServerState × Bool :=
  match st.retrieve_track req.track_handle with
  | Except.error e => (Except.error e, st, false)
  | Except.ok ffiTrack =>
    match ffiTrack.track.rtc_track with
    | MediaStreamTrack.audio _ =>
        (Except.error (FfiError.invalidRequest "not a video track"), st, false)
    | MediaStreamTrack.video _ =>
        let handleId := (st.next_id).1
        let st₁ := (st.next_id).2
        match req.type with
        | VideoStreamType.videoStreamNative =>
            let st₂ := st₁.store_handle handleId
              (StoredResource.videoStream handleId VideoStreamType.videoStreamNative)
            (Except.ok { handle := handleId, infoType := VideoStreamType.videoStreamNative },
             st₂, true)
        | _ =>
            (Except.error (FfiError.invalidRequest "unsupported video stream type"),
             st₁, false)

/-- A `VideoFrame` as the task observes it (its buffer is what gets stored
under a fresh handle). -/
structure VideoFrame where
  buffer : Nat
  deriving DecidableEq, Repr

/-- One evaluation of the `tokio::select!` in the producer loop, as chosen
by the scheduler: the polling order `select!` picks (it is random without
`biased`), whether `close_rx` has completed, and the state of
`native_stream.next()` (`none`: not ready; `some none`: stream exhausted;
`some (some f)`: a frame is ready). -/
structure SelectPoll where
  pollCloseFirst : Bool
  closeReady : Bool
  frame : Option (Option VideoFrame)
  deriving DecidableEq, Repr

/-- The branch a `select!` evaluation resolves to. -/
inductive Branch where
  | close
  | frame (f : Option VideoFrame)
  | pending
  deriving DecidableEq, Repr

/-- Resolution of the unbiased `tokio::select!`: the branches are polled in
the scheduler-chosen order and the first ready one wins; if neither is
ready the select stays pending. -/
def resolve (p : SelectPoll) : Branch :=
  if p.pollCloseFirst then
    if p.closeReady then Branch.close
    else
      match p.frame with
      | some f => Branch.frame f
      | none => Branch.pending
  else
    match p.frame with
    | some f => Branch.frame f
    | none => if p.closeReady then Branch.close else Branch.pending

/-- The payload of a `proto::VideoStreamEvent`. -/
inductive StreamEventMessage where
  | frameReceived (bufferHandle : Nat)
  | eos
  deriving DecidableEq, Repr

/-- A `proto::VideoStreamEvent` submitted to `send_event`, paired with the
result that send returned (`false` = the send failed and was logged). -/
structure SentEvent where
  stream_handle : Nat
  message : StreamEventMessage
  sendOk : Bool
  deriving DecidableEq, Repr

/-- Pop the next send result from the oracle (the channel's behaviour is
external input; an exhausted oracle means sends succeed). -/
def nextSend : List Bool → Bool × List Bool
  | [] => (true, [])
  | b :: r => (b, r)

/-- `FfiVideoStream::native_video_stream_task`, driven by the scheduler's
select resolutions: on the close branch or on source exhaustion it breaks
out of the loop; on a frame it allocates a fresh buffer handle, submits a
`FrameReceived` event (a failed send is only logged) and loops. After the
loop it submits exactly one `Eos` event and returns. The result is `some`
(the submitted events and final fresh-handle counter) when the task
terminated within the given resolutions, `none` while it is still
running. -/
def native_video_stream_task (stream_handle : Nat) (nextId : Nat)
    (polls : List SelectPoll) (sendOracle : List Bool)
    (acc : List SentEvent) : Option (List SentEvent × Nat) :=
  match polls with
  | [] => none
  | p :: rest =>
    match resolve p with
    | Branch.pending => native_video_stream_task stream_handle nextId rest sendOracle acc
    | Branch.close =>
        some (acc ++ [{ stream_handle := stream_handle
                        message := StreamEventMessage.eos
                        sendOk := (nextSend sendOracle).1 }], nextId)
    | Branch.frame none =>
        some (acc ++ [{ stream_handle := stream_handle
                        message := StreamEventMessage.eos
                        sendOk := (nextSend sendOracle).1 }], nextId)
    | Branch.frame (some _) =>
        let handleId := nextId
        native_video_stream_task stream_handle (nextId + 1) rest (nextSend sendOracle).2
          (acc ++ [{ stream_handle := stream_handle
                     message := StreamEventMessage.frameReceived handleId
                     sendOk := (nextSend sendOracle).1 }])

end Ffi

/-! ## Concrete states used by witnesses and counterexamples -/

/-- A sample configuration. -/
def sampleOptions : E2eeOptions :=
  { encryption_type := EncryptionType.gcm, key_provider := { handle := 0 } }

/-- A manager with configuration present and one binding for
`("alice", "TR_1")`. -/
def boundState : ManagerInner :=
  (E2eeManager.step (E2eeManager.new (some sampleOptions))
    (E2eeManager.Op.trackSubscribed "alice" "TR_1" EncryptionType.gcm)).1

/-! ## Claim theorems -/

/-- C10: a manager built by `new(options)` has its global enabled flag equal
to `options.is_some()`; with a configuration `enabled()` is `true`
immediately and with `None` it is `false`. -/
theorem new_enabled_iff_options_present (opts : Option E2eeOptions) :
    (E2eeManager.new opts).enabled = opts.isSome ∧
    E2eeManager.enabled (E2eeManager.new opts) = opts.isSome := by
  refine ⟨rfl, ?_⟩
  simp [E2eeManager.enabled, E2eeManager.new, E2eeManager.hasOptions]

/-- C1 (divergence at the failing input): `set_enabled(false)` on a manager
constructed with a configuration leaves the stored global flag — and hence
`enabled()` — at `true`, because `set_enabled` never assigns
`inner.enabled`. The claim says both become `false`. The claim's second
half, `enabled() = flag AND configuration-present`, does hold in every
state. -/
theorem set_enabled_does_not_update_flag :
    ((E2eeManager.set_enabled (E2eeManager.new (some sampleOptions)) false).1.enabled = true ∧
     E2eeManager.enabled (E2eeManager.set_enabled (E2eeManager.new (some sampleOptions)) false).1
       = true) ∧
    ∀ m : ManagerInner, E2eeManager.enabled m = (m.enabled && m.options.isSome) := by
  refine ⟨by decide, ?_⟩
  intro m
  rfl

/-- C4 (divergence at the failing input): with a configuration present and
one binding, two consecutive `set_enabled(false)` calls each propagate to
the binding — the stored flag is never updated, so the unchanged-value
guard never fires on the second call. The claim says the second call
performs no propagation. -/
theorem set_enabled_repropagates :
    (E2eeManager.set_enabled boundState false).2.length = 1 ∧
    (E2eeManager.set_enabled (E2eeManager.set_enabled boundState false).1 false).2.length
      = 1 := by decide

/-- C6: with the configuration absent, both acquisition notifications are
no-ops (state unchanged, no cryptor calls) and `enabled()` is `false`; and
for any manager, an acquisition whose publication has encryption type
`None` is a no-op. -/
theorem uninitialized_acquire_is_noop (m : ManagerInner) (identity sid : String)
    (et : EncryptionType) (h : m.options = none) :
    E2eeManager.on_track_subscribed m identity sid et = (m, []) ∧
    E2eeManager.on_local_track_published m identity sid et = (m, []) ∧
    E2eeManager.enabled m = false ∧
    (∀ (m' : ManagerInner) (id' sid' : String),
      E2eeManager.on_track_subscribed m' id' sid' EncryptionType.none = (m', []) ∧
      E2eeManager.on_local_track_published m' id' sid' EncryptionType.none = (m', [])) := by
  have hOpt : E2eeManager.hasOptions m = false := by
    simp [E2eeManager.hasOptions, h]
  refine ⟨?_, ?_, ?_, ?_⟩
  · simp [E2eeManager.on_track_subscribed, hOpt]
  · simp [E2eeManager.on_local_track_published, hOpt]
  · simp [E2eeManager.enabled, hOpt]
  · intro m' id' sid'
    constructor
    · unfold E2eeManager.on_track_subscribed
      split
      · rfl
      · rw [if_pos rfl]
    · unfold E2eeManager.on_local_track_published
      split
      · rfl
      · rw [if_pos rfl]

/-- Witness for C6 at `new none` and identity `"alice"`, sid `"TR_1"`. -/
theorem uninitialized_acquire_is_noop_witness :
    E2eeManager.on_track_subscribed (E2eeManager.new none) "alice" "TR_1"
        EncryptionType.gcm = (E2eeManager.new none, []) ∧
    E2eeManager.enabled (E2eeManager.new none) = false :=
  ⟨(uninitialized_acquire_is_noop (E2eeManager.new none) "alice" "TR_1"
      EncryptionType.gcm rfl).1,
   (uninitialized_acquire_is_noop (E2eeManager.new none) "alice" "TR_1"
      EncryptionType.gcm rfl).2.2.1⟩

/-- C3 counterexample: in a state with a live binding for
`("alice", "TR_1")` whose cryptor is enabled, the release notification
emits no `set_enabled(false)` call on that cryptor (its effect trace is
empty), refuting the claim that release disables the binding's transform
instance. (Compare `cleanup`, which does emit such calls.) -/
theorem release_emits_no_disable :
    HashMapModel.find ("alice", "TR_1") boundState.frame_cryptors
      = some { participant_identity := "alice", enabled := true } ∧
    ¬ (Effect.cryptorSetEnabled "alice" "TR_1" false ∈
        (E2eeManager.on_track_unsubscribed boundState "alice" "TR_1").2) := by decide

/-- No entry for the removed key survives `HashMapModel.remove`. -/
theorem find_remove_self (k : BindingKey) (l : List (BindingKey × FrameCryptor)) :
    HashMapModel.find k (HashMapModel.remove k l) = none := by
  unfold HashMapModel.find HashMapModel.remove
  rw [List.find?_eq_none.2]
  · rfl
  · intro p hp
    have := List.of_mem_filter hp
    simpa using this

/-- Removing an absent key leaves the collection unchanged. -/
theorem remove_absent_eq_self (k : BindingKey) (l : List (BindingKey × FrameCryptor))
    (h : HashMapModel.find k l = none) :
    HashMapModel.remove k l = l := by
  unfold HashMapModel.find at h
  unfold HashMapModel.remove
  rw [List.filter_eq_self]
  intro p hp
  have hnone := Option.map_eq_none.1 h
  have := List.find?_eq_none.1 hnone p hp
  simpa using this

/-- C3 (amended): both release notifications remove the binding for the key
from the collection without making any call on the removed cryptor; when no
binding exists for the key the call leaves the state unchanged (a no-op,
not an error), so a second release of the same key is a no-op. -/
theorem release_removes_binding (m : ManagerInner) (identity sid : String) :
    (E2eeManager.on_track_unsubscribed m identity sid).2 = [] ∧
    (E2eeManager.on_local_track_unpublished m identity sid).2 = [] ∧
    (E2eeManager.on_local_track_unpublished m identity sid
      = E2eeManager.on_track_unsubscribed m identity sid) ∧
    HashMapModel.find (identity, sid)
      (E2eeManager.on_track_unsubscribed m identity sid).1.frame_cryptors = none ∧
    (HashMapModel.find (identity, sid) m.frame_cryptors = none →
      E2eeManager.on_track_unsubscribed m identity sid = (m, [])) ∧
    E2eeManager.on_track_unsubscribed
        (E2eeManager.on_track_unsubscribed m identity sid).1 identity sid
      = ((E2eeManager.on_track_unsubscribed m identity sid).1, []) := by
  refine ⟨rfl, rfl, rfl, ?_, ?_, ?_⟩
  · exact find_remove_self (identity, sid) m.frame_cryptors
  · intro h
    have h2 := remove_absent_eq_self (identity, sid) m.frame_cryptors h
    unfold E2eeManager.on_track_unsubscribed E2eeManager.remove_frame_cryptor
    simp [h2]
  · have h2 := remove_absent_eq_self (identity, sid)
      (HashMapModel.remove (identity, sid) m.frame_cryptors)
      (find_remove_self (identity, sid) m.frame_cryptors)
    unfold E2eeManager.on_track_unsubscribed E2eeManager.remove_frame_cryptor
    simp [h2]

/-- Witness for C3's amended theorem: acquire then release
`("alice", "TR_1")` — the binding is gone, no effect is emitted, and a
second release is a no-op. -/
theorem release_removes_binding_witness :
    (E2eeManager.on_track_unsubscribed boundState "alice" "TR_1").2 = [] ∧
    HashMapModel.find ("alice", "TR_1")
      (E2eeManager.on_track_unsubscribed boundState "alice" "TR_1").1.frame_cryptors
        = none ∧
    E2eeManager.on_track_unsubscribed (E2eeManager.new none) "alice" "TR_1"
      = (E2eeManager.new none, []) ∧
    E2eeManager.on_track_unsubscribed
        (E2eeManager.on_track_unsubscribed boundState "alice" "TR_1").1 "alice" "TR_1"
      = ((E2eeManager.on_track_unsubscribed boundState "alice" "TR_1").1, []) :=
  ⟨(release_removes_binding boundState "alice" "TR_1").1,
   (release_removes_binding boundState "alice" "TR_1").2.2.2.1,
   (release_removes_binding (E2eeManager.new none) "alice" "TR_1").2.2.2.2.1 rfl,
   (release_removes_binding boundState "alice" "TR_1").2.2.2.2.2⟩

/-! ## Key-uniqueness invariant for the binding collection -/

/-- The binding collection holds pairwise-distinct keys. -/
def keysNodup (m : ManagerInner) : Prop :=
  (HashMapModel.keys m.frame_cryptors).Nodup

/-- Inserting preserves key uniqueness: the new key heads the list and every
surviving entry has a different key. -/
theorem keys_nodup_insert (k : BindingKey) (v : FrameCryptor)
    (l : List (BindingKey × FrameCryptor))
    (h : (HashMapModel.keys l).Nodup) :
    (HashMapModel.keys (HashMapModel.insert k v l)).Nodup := by
  unfold HashMapModel.keys HashMapModel.insert
  rw [List.map_cons, List.nodup_cons]
  constructor
  · intro hmem
    rcases List.mem_map.1 hmem with ⟨p, hp, hfst⟩
    have := List.of_mem_filter hp
    simp at this
    exact this hfst
  · exact ((List.filter_sublist l).map Prod.fst).nodup h

/-- Removing preserves key uniqueness. -/
theorem keys_nodup_remove (k : BindingKey) (l : List (BindingKey × FrameCryptor))
    (h : (HashMapModel.keys l).Nodup) :
    (HashMapModel.keys (HashMapModel.remove k l)).Nodup :=
  ((List.filter_sublist l).map Prod.fst).nodup h

/-- Every manager operation preserves key uniqueness of the binding
collection. -/
theorem step_preserves_keysNodup (m : ManagerInner) (op : E2eeManager.Op)
    (h : keysNodup m) : keysNodup (E2eeManager.step m op).1 := by
  unfold keysNodup at *
  cases op with
  | setEnabled v =>
      show (HashMapModel.keys (E2eeManager.set_enabled m v).1.frame_cryptors).Nodup
      unfold E2eeManager.set_enabled
      split
      · exact h
      · simpa [HashMapModel.keys, List.map_map, Function.comp] using h
  | trackSubscribed identity sid et =>
      show (HashMapModel.keys (E2eeManager.on_track_subscribed m identity sid et).1.frame_cryptors).Nodup
      unfold E2eeManager.on_track_subscribed
      split
      · exact h
      · split
        · exact h
        · exact keys_nodup_insert _ _ _ h
  | localTrackPublished identity sid et =>
      show (HashMapModel.keys (E2eeManager.on_local_track_published m identity sid et).1.frame_cryptors).Nodup
      unfold E2eeManager.on_local_track_published
      split
      · exact h
      · split
        · exact h
        · exact keys_nodup_insert _ _ _ h
  | trackUnsubscribed identity sid =>
      exact keys_nodup_remove _ _ h
  | localTrackUnpublished identity sid =>
      exact keys_nodup_remove _ _ h
  | doCleanup =>
      exact List.nodup_nil

/-- Running any operation sequence preserves key uniqueness. -/
theorem run_preserves_keysNodup (ops : List E2eeManager.Op) (m : ManagerInner)
    (h : keysNodup m) : keysNodup (E2eeManager.run m ops) := by
  induction ops generalizing m with
  | nil => exact h
  | cons op rest ih =>
      exact ih (E2eeManager.step m op).1 (step_preserves_keysNodup m op h)

/-- C7: in every state reachable from `new`, the binding collection holds at
most one entry per (identity, resource-id) key — its keys are pairwise
distinct — and the number of live bindings equals the number of distinct
keys; a second acquisition for an already-bound key silently replaces the
prior binding, leaving exactly one binding for that key, and the stored
cryptor is the newly built one. -/
theorem bindings_unique_per_key (opts : Option E2eeOptions) (ops : List E2eeManager.Op)
    (m : ManagerInner) (hm : m = E2eeManager.run (E2eeManager.new opts) ops) :
    (HashMapModel.keys m.frame_cryptors).Nodup ∧
    m.frame_cryptors.length = (HashMapModel.keys m.frame_cryptors).dedup.length ∧
    ∀ (identity sid : String) (et : EncryptionType),
      E2eeManager.hasOptions m = true → et ≠ EncryptionType.none →
      (identity, sid) ∈ HashMapModel.keys m.frame_cryptors →
      E2eeManager.on_local_track_published m identity sid et
        = E2eeManager.on_track_subscribed m identity sid et ∧
      HashMapModel.find (identity, sid)
        (E2eeManager.on_track_subscribed m identity sid et).1.frame_cryptors
        = some (E2eeManager.setup_cryptor_for m identity) ∧
      ((E2eeManager.on_track_subscribed m identity sid et).1.frame_cryptors.filter
        (fun p => p.1 = (identity, sid))).length = 1 := by
  have hnodup : keysNodup m := by
    rw [hm]
    exact run_preserves_keysNodup ops _ List.nodup_nil
  refine ⟨hnodup, ?_, ?_⟩
  · rw [List.dedup_eq_self.2 hnodup]
    exact (List.length_map _ _).symm
  · intro identity sid et hOpt hne _hmem
    have hsub : (E2eeManager.on_track_subscribed m identity sid et).1.frame_cryptors
        = HashMapModel.insert (identity, sid)
            (E2eeManager.setup_cryptor_for m identity) m.frame_cryptors := by
      unfold E2eeManager.on_track_subscribed
      rw [if_neg (by simp [hOpt]), if_neg hne]
    refine ⟨rfl, ?_, ?_⟩
    · rw [hsub]
      unfold HashMapModel.find HashMapModel.insert
      rw [List.find?_cons_of_pos _ (by simp)]
      rfl
    · rw [hsub]
      unfold HashMapModel.insert
      rw [List.filter_cons_of_pos (by simp), List.filter_filter]
      rw [List.filter_eq_nil_iff.2 (by intro p _; simp)]
      rfl

/-- Witness for C7: after binding `("alice", "TR_1")`, a second acquisition
for the same key (now with `Custom` encryption) replaces the binding. -/
theorem bindings_unique_per_key_witness :
    (HashMapModel.keys boundState.frame_cryptors).Nodup ∧
    HashMapModel.find ("alice", "TR_1")
      (E2eeManager.on_track_subscribed boundState "alice" "TR_1"
        EncryptionType.custom).1.frame_cryptors
      = some (E2eeManager.setup_cryptor_for boundState "alice") ∧
    ((E2eeManager.on_track_subscribed boundState "alice" "TR_1"
        EncryptionType.custom).1.frame_cryptors.filter
      (fun p => p.1 = ("alice", "TR_1"))).length = 1 := by
  have h := bindings_unique_per_key (some sampleOptions)
    [E2eeManager.Op.trackSubscribed "alice" "TR_1" EncryptionType.gcm] boundState rfl
  have h2 := h.2.2 "alice" "TR_1" EncryptionType.custom (by decide) (by decide) (by decide)
  exact ⟨h.1, h2.2.1, h2.2.2⟩

/-! ## Producer-task trace properties -/

/-- Shape of a terminated producer run: beyond what was already
accumulated, the loop submits only frame events, and the single `Eos` event
is submitted last, after the loop exits. -/
theorem task_trace_shape (stream_handle : Nat) (polls : List Ffi.SelectPoll) :
    ∀ (nextId : Nat) (sendOracle : List Bool) (acc tr : List Ffi.SentEvent) (fid : Nat),
      Ffi.native_video_stream_task stream_handle nextId polls sendOracle acc
        = some (tr, fid) →
      ∃ mid ok,
        tr = acc ++ mid ++ [{ stream_handle := stream_handle
                              message := Ffi.StreamEventMessage.eos
                              sendOk := ok }] ∧
        ∀ e ∈ mid, ∃ hId okE,
          e = { stream_handle := stream_handle
                message := Ffi.StreamEventMessage.frameReceived hId
                sendOk := okE } := by
  induction polls with
  | nil =>
      intro nextId sendOracle acc tr fid h
      exact absurd h (by simp [Ffi.native_video_stream_task])
  | cons p rest ih =>
      intro nextId sendOracle acc tr fid h
      unfold Ffi.native_video_stream_task at h
      cases hres : Ffi.resolve p with
      | pending =>
          rw [hres] at h
          exact ih nextId sendOracle acc tr fid h
      | close =>
          rw [hres] at h
          rw [Option.some.injEq, Prod.mk.injEq] at h
          obtain ⟨htr, -⟩ := h
          exact ⟨[], (Ffi.nextSend sendOracle).1, by rw [← htr]; simp, by simp⟩
      | frame f =>
          cases f with
          | none =>
              rw [hres] at h
              rw [Option.some.injEq, Prod.mk.injEq] at h
              obtain ⟨htr, -⟩ := h
              exact ⟨[], (Ffi.nextSend sendOracle).1, by rw [← htr]; simp, by simp⟩
          | some fr =>
              rw [hres] at h
              obtain ⟨mid, ok, htr, hmid⟩ := ih _ _ _ _ _ h
              refine ⟨{ stream_handle := stream_handle
                        message := Ffi.StreamEventMessage.frameReceived nextId
                        sendOk := (Ffi.nextSend sendOracle).1 } :: mid, ok, ?_, ?_⟩
              · rw [htr]; simp
              · intro e he
                rcases List.mem_cons.1 he with rfl | hmem
                · exact ⟨nextId, (Ffi.nextSend sendOracle).1, rfl⟩
                · exact hmid e hmem

/-- C2: every terminated producer run — whether it ended on the
cancellation signal or on source exhaustion, and for every send-result
oracle (so even when item-event sends failed) — submits exactly one
end-of-stream event, that event is the last event submitted, and the task
exits after submitting it (the trace is a prefix of frame events followed
by the single `Eos`). -/
theorem stream_ends_with_single_eos (stream_handle nextId : Nat)
    (polls : List Ffi.SelectPoll) (sendOracle : List Bool)
    (tr : List Ffi.SentEvent) (fid : Nat)
    (h : Ffi.native_video_stream_task stream_handle nextId polls sendOracle []
          = some (tr, fid)) :
    (tr.filter (fun e => e.message = Ffi.StreamEventMessage.eos)).length = 1 ∧
    ∃ pre lastE, tr = pre ++ [lastE] ∧
      lastE.message = Ffi.StreamEventMessage.eos ∧
      ∀ e ∈ pre, e.message ≠ Ffi.StreamEventMessage.eos := by
  obtain ⟨mid, ok, htr, hmid⟩ :=
    task_trace_shape stream_handle polls nextId sendOracle [] tr fid h
  rw [List.nil_append] at htr
  have hmid' : ∀ e ∈ mid, e.message ≠ Ffi.StreamEventMessage.eos := by
    intro e he
    obtain ⟨hId, okE, rfl⟩ := hmid e he
    simp
  constructor
  · rw [htr, List.filter_append]
    rw [List.filter_eq_nil_iff.2 (by intro e he; simpa using hmid' e he)]
    simp
  · exact ⟨mid, _, htr, rfl, hmid'⟩

/-- Witness for C2: a run cancelled before any frame submits exactly the
one `Eos` event. -/
theorem stream_ends_with_single_eos_witness :
    ((([{ stream_handle := 7, message := Ffi.StreamEventMessage.eos, sendOk := true }] :
        List Ffi.SentEvent)).filter
      (fun e => e.message = Ffi.StreamEventMessage.eos)).length = 1 ∧
    ∃ pre lastE,
      ([{ stream_handle := 7, message := Ffi.StreamEventMessage.eos, sendOk := true }] :
        List Ffi.SentEvent) = pre ++ [lastE] ∧
      lastE.message = Ffi.StreamEventMessage.eos ∧
      ∀ e ∈ pre, e.message ≠ Ffi.StreamEventMessage.eos :=
  stream_ends_with_single_eos 7 10
    [{ pollCloseFirst := true, closeReady := true, frame := none }] [] _ 10 (by decide)

/-- C8 counterexample: the `select!` in the producer loop is unbiased, so
the cancellation branch is not prioritized — when the cancellation signal
and a frame are both ready and the scheduler polls the frame branch first
(`pollCloseFirst = false`), the frame branch wins. -/
theorem cancellation_not_prioritized :
    ¬ ∀ p : Ffi.SelectPoll, p.closeReady = true → Ffi.resolve p = Ffi.Branch.close := by
  intro h
  have h2 := h { pollCloseFirst := false, closeReady := true
                 frame := some (some { buffer := 0 }) } rfl
  simp [Ffi.resolve] at h2

/-- C8 (amended): the select between the cancellation signal and the next
item is unbiased — when both are ready the poll order decides which branch
wins — but once the cancellation branch is taken the task pulls no further
items: the run is unchanged by whatever is still buffered after the
resolution that takes the close branch. -/
theorem close_branch_stops_pulling (stream_handle nextId : Nat)
    (pre : List Ffi.SelectPoll) (p : Ffi.SelectPoll) (post : List Ffi.SelectPoll)
    (sendOracle : List Bool) (acc : List Ffi.SentEvent) (f : Ffi.VideoFrame)
    (h : Ffi.resolve p = Ffi.Branch.close) :
    Ffi.native_video_stream_task stream_handle nextId (pre ++ p :: post) sendOracle acc
      = Ffi.native_video_stream_task stream_handle nextId (pre ++ [p]) sendOracle acc ∧
    Ffi.resolve { pollCloseFirst := true, closeReady := true, frame := some (some f) }
      = Ffi.Branch.close ∧
    Ffi.resolve { pollCloseFirst := false, closeReady := true, frame := some (some f) }
      = Ffi.Branch.frame (some f) := by
  refine ⟨?_, rfl, rfl⟩
  induction pre generalizing nextId sendOracle acc with
  | nil =>
      simp only [List.nil_append]
      unfold Ffi.native_video_stream_task
      rw [h]
  | cons q rest ih =>
      simp only [List.cons_append]
      unfold Ffi.native_video_stream_task
      cases hres : Ffi.resolve q with
      | pending => exact ih nextId sendOracle acc
      | close => rfl
      | frame f' =>
          cases f' with
          | none => rfl
          | some fr => exact ih (nextId + 1) (Ffi.nextSend sendOracle).2 _

/-- Witness for C8's amended theorem: with the close signal resolved first,
a buffered frame after it is never pulled. -/
theorem close_branch_stops_pulling_witness :
    Ffi.native_video_stream_task 7 10
        ([] ++ ({ pollCloseFirst := true, closeReady := true, frame := none } :
          Ffi.SelectPoll) ::
          [{ pollCloseFirst := true, closeReady := true
             frame := some (some { buffer := 3 }) }]) [] []
      = Ffi.native_video_stream_task 7 10
          ([] ++ [{ pollCloseFirst := true, closeReady := true, frame := none }]) [] [] ∧
    Ffi.resolve { pollCloseFirst := true, closeReady := true
                  frame := some (some ({ buffer := 0 } : Ffi.VideoFrame)) }
      = Ffi.Branch.close ∧
    Ffi.resolve { pollCloseFirst := false, closeReady := true
                  frame := some (some ({ buffer := 0 } : Ffi.VideoFrame)) }
      = Ffi.Branch.frame (some { buffer := 0 }) :=
  close_branch_stops_pulling 7 10 []
    { pollCloseFirst := true, closeReady := true, frame := none }
    [{ pollCloseFirst := true, closeReady := true, frame := some (some { buffer := 3 }) }]
    [] [] { buffer := 0 } (by decide)

/-- C5: a setup request whose retrieved source is not a video track, or
whose requested stream type is not the supported native kind, fails
synchronously with an `InvalidRequest` error, spawns no producer task, and
stores no stream object in the handle registry. -/
theorem invalid_setup_rejected (st : Ffi.ServerState) (req : Ffi.NewVideoStreamRequest)
    (t : Ffi.FfiTrack)
    (hret : st.retrieve_track req.track_handle = Except.ok t)
    (hbad : (∀ v, t.track.rtc_track ≠ MediaStreamTrack.video v)
            ∨ req.type ≠ Ffi.VideoStreamType.videoStreamNative) :
    (∃ msg, (Ffi.setup st req).1 = Except.error (Ffi.FfiError.invalidRequest msg)) ∧
    (Ffi.setup st req).2.1.handles = st.handles ∧
    (Ffi.setup st req).2.2 = false := by
  cases htrack : t.track.rtc_track with
  | audio a =>
      refine ⟨⟨"not a video track", ?_⟩, ?_, ?_⟩ <;>
        simp [Ffi.setup, hret, htrack]
  | video v =>
      cases hbad with
      | inl hb => exact absurd htrack (hb v)
      | inr hb =>
          cases hty : req.type with
          | videoStreamNative => exact absurd hty hb
          | videoStreamHtml =>
              refine ⟨⟨"unsupported video stream type", ?_⟩, ?_, ?_⟩ <;>
                simp [Ffi.setup, hret, htrack, hty, Ffi.ServerState.next_id]

/-- Witness for C5: an audio-track source and a non-native stream type are
both rejected without storing anything. -/
theorem invalid_setup_rejected_witness :
    (∃ msg,
      (Ffi.setup
        { nextId := 2
          handles := [(1, Ffi.StoredResource.track
            { track := { rtcTrackValue := MediaStreamTrack.audio { id := "a" } } })] }
        { track_handle := 1, type := Ffi.VideoStreamType.videoStreamNative }).1
        = Except.error (Ffi.FfiError.invalidRequest msg)) ∧
    (Ffi.setup
        { nextId := 2
          handles := [(1, Ffi.StoredResource.track
            { track := { rtcTrackValue := MediaStreamTrack.audio { id := "a" } } })] }
        { track_handle := 1, type := Ffi.VideoStreamType.videoStreamNative }).2.1.handles
      = [(1, Ffi.StoredResource.track
            { track := { rtcTrackValue := MediaStreamTrack.audio { id := "a" } } })] ∧
    (Ffi.setup
        { nextId := 2
          handles := [(1, Ffi.StoredResource.track
            { track := { rtcTrackValue := MediaStreamTrack.audio { id := "a" } } })] }
        { track_handle := 1, type := Ffi.VideoStreamType.videoStreamNative }).2.2
      = false :=
  invalid_setup_rejected _ _
    { track := { rtcTrackValue := MediaStreamTrack.audio { id := "a" } } }
    (by rfl)
    (Or.inl (by intro v h; cases h))

/-- C9: a `LocalAudioTrack` built by `new` (and hence by
`create_audio_track`, which delegates to `new`) always carries the `Audio`
variant of `MediaStreamTrack`, so `rtc_track()` returns the audio track —
the `unreachable!()` fall-through (embedded as `none`) is never taken — and
`kind()` returns `TrackKind::Audio`. -/
theorem local_audio_track_always_audio (name uuid : String) (rtc : RtcAudioTrack)
    (source : RtcAudioSource) (t : LocalAudioTrack)
    (hc : LocalAudioTrack.create_audio_track name uuid source = some t) :
    (LocalAudioTrack.new name rtc source).inner.rtc_track
      = MediaStreamTrack.audio rtc ∧
    LocalAudioTrack.rtc_track (LocalAudioTrack.new name rtc source) = some rtc ∧
    LocalAudioTrack.kind (LocalAudioTrack.new name rtc source) = TrackKind.audio ∧
    (∃ a, t.inner.rtc_track = MediaStreamTrack.audio a ∧
      LocalAudioTrack.rtc_track t = some a) ∧
    LocalAudioTrack.kind t = TrackKind.audio := by
  refine ⟨rfl, rfl, rfl, ?_, ?_⟩ <;>
  · cases source with
    | dummy => exact absurd hc (by simp [LocalAudioTrack.create_audio_track])
    | native src =>
        rw [LocalAudioTrack.create_audio_track, Option.some.injEq] at hc
        rw [← hc]
        first
        | exact ⟨LocalAudioTrack.pcFactoryCreateAudioTrack uuid src, rfl, rfl⟩
        | rfl

/-- Witness for C9: a concrete track created from a native source. -/
theorem local_audio_track_always_audio_witness :
    (LocalAudioTrack.new "mic" { id := "u1" } (RtcAudioSource.native { handle := 0 })).inner.rtc_track
      = MediaStreamTrack.audio { id := "u1" } ∧
    LocalAudioTrack.rtc_track
        (LocalAudioTrack.new "mic" { id := "u1" } (RtcAudioSource.native { handle := 0 }))
      = some { id := "u1" } ∧
    LocalAudioTrack.kind
        (LocalAudioTrack.new "mic" { id := "u1" } (RtcAudioSource.native { handle := 0 }))
      = TrackKind.audio ∧
    (∃ a, (LocalAudioTrack.new "mic" { id := "u1" }
            (RtcAudioSource.native { handle := 0 })).inner.rtc_track
          = MediaStreamTrack.audio a ∧
      LocalAudioTrack.rtc_track
          (LocalAudioTrack.new "mic" { id := "u1" } (RtcAudioSource.native { handle := 0 }))
        = some a) ∧
    LocalAudioTrack.kind
        (LocalAudioTrack.new "mic" { id := "u1" } (RtcAudioSource.native { handle := 0 }))
      = TrackKind.audio :=
  local_audio_track_always_audio "mic" "u1" { id := "u1" }
    (RtcAudioSource.native { handle := 0 })
    (LocalAudioTrack.new "mic" { id := "u1" } (RtcAudioSource.native { handle := 0 }))
    (by decide)

end LiveKit
